import Mathlib

/-!
Shallow embedding of the daily sales dashboard (`src/main.py`) for the
claims about its aggregation and formatting logic.

Modelling conventions:
* A pandas DataFrame is a `List` of structure rows; a cell that can be SQL
  NULL / pandas NaN is an `Option`.
* Monetary values are `ℚ` (the spec's Decimal); `none` models a null value.
* `Series.sum()` uses the pandas default `skipna=True`: null cells are
  skipped, and an all-null or empty column sums to `0`.
* `groupby(key, as_index=False)[v].sum()` uses the pandas defaults
  `sort=True` (group keys in ascending order) and `dropna=True` (rows with
  a null key form no group); within a group the sum again skips nulls.
* `pd.merge(..., how='outer')` produces one row per key in the union of
  the two (already unique) key columns; both key columns are kept.  The
  subsequent `.fillna(0)` turns every missing numeric cell into `0` and a
  missing *name* cell into the number `0` as well; we keep the name cell as
  an `Option String` whose `none` is that filled numeric `0`, displayed as
  the string `"0"`.
* `sort_values(by='Faturamento', ascending=False)` is modelled by a
  deterministic comparison sort (insertion sort) on the `Faturamento`
  column; pandas' default quicksort is likewise a deterministic function of
  its input, and no claim constrains the order of ties beyond determinism.
* The SQL `WHERE CAST(Emissao AS DATE) = hoje_str` clause of the two
  loader functions is a filter over a base table; the field stored in the
  row model is already the day-granular `CAST(... AS DATE)` value, as a
  string in `YYYY-MM-DD` form.
-/

/-- A row of `dbo.v_faturamento_produto` as selected by `carregar_dados_hoje`
(line 36 of `src/main.py`): `Emissao` (kept at day granularity, i.e. the
value of `CAST(Emissao AS DATE)`), `VENDEDOR`, `ValorNF`. -/
structure SalesRow where
  emissao : String
  vendedor : Option String
  valorNF : Option ℚ
deriving Repr, DecidableEq

/-- A row of `dbo.v_devolucoes` as selected by `carregar_devolucoes_hoje`
(lines 46-54 of `src/main.py`). -/
structure ReturnRow where
  quantidade : ℤ
  valorTotal : Option ℚ
  nf : String
  emissaoNFD : String
  codVendedor : String
  nomeVendedor : Option String
deriving Repr, DecidableEq

/-- pandas `Series.sum()` with the default `skipna=True`: null cells are
skipped and the empty sum is `0`. -/
def pdSum (l : List (Option ℚ)) : ℚ :=
  (l.filterMap id).sum

/-- `carregar_dados_hoje` (lines 33-40): the SQL query filters the base
table to the rows whose emission date equals `hoje_str`. -/
def carregar_dados_hoje (db : List SalesRow) (hoje_str : String) : List SalesRow :=
  db.filter (fun r => r.emissao == hoje_str)

/-- `carregar_devolucoes_hoje` (lines 43-57): same filter on `EMISSAO_NFD`. -/
def carregar_devolucoes_hoje (db : List ReturnRow) (hoje_str : String) : List ReturnRow :=
  db.filter (fun r => r.emissaoNFD == hoje_str)

/-- Line 73: `total_vendas = df_vendas['ValorNF'].sum()`. -/
def total_vendas (df_vendas : List SalesRow) : ℚ :=
  pdSum (df_vendas.map (·.valorNF))

/-- Line 74: `total_devolucoes = df_devolucoes['VALOR_TOTAL'].sum()`. -/
def total_devolucoes (df_devolucoes : List ReturnRow) : ℚ :=
  pdSum (df_devolucoes.map (·.valorTotal))

/-- Line 75: `faturamento_liquido = total_vendas - total_devolucoes`. -/
def faturamento_liquido (df_vendas : List SalesRow) (df_devolucoes : List ReturnRow) : ℚ :=
  total_vendas df_vendas - total_devolucoes df_devolucoes

/-- Lexicographic comparison of character lists by code point, the order
in which Python sorts strings. -/
def lexLe : List Char → List Char → Bool
  | [], _ => true
  | _ :: _, [] => false
  | a :: as, b :: bs =>
    if a.val.toNat < b.val.toNat then true
    else if b.val.toNat < a.val.toNat then false
    else lexLe as bs

/-- The group keys produced by pandas `groupby` with its defaults: the
distinct non-null keys, in ascending code-point order. -/
def pdGroupKeys (ks : List String) : List String :=
  List.insertionSort (fun a b => lexLe a.data b.data = true) ks.dedup

/-- pandas `df.groupby(k, as_index=False)[v].sum()` on a two-column frame
given as (key, value) pairs: one output pair per distinct non-null key (in
ascending key order), carrying the null-skipping sum of that key's values. -/
def pdGroupSum (pairs : List (Option String × Option ℚ)) : List (String × ℚ) :=
  (pdGroupKeys (pairs.filterMap Prod.fst)).map
    (fun k => (k, pdSum ((pairs.filter (fun p => p.1 == some k)).map Prod.snd)))

/-- Lines 84-88: `df_vendas.groupby('VENDEDOR', as_index=False)['ValorNF'].sum()`
renamed to `Receita`. -/
def vendas_vendedor (df_vendas : List SalesRow) : List (String × ℚ) :=
  pdGroupSum (df_vendas.map (fun r => (r.vendedor, r.valorNF)))

/-- Lines 89-93: `df_devolucoes.groupby('NOME_VENDEDOR', as_index=False)['VALOR_TOTAL'].sum()`
renamed to `Devolução`. -/
def devolucao_vendedor (df_devolucoes : List ReturnRow) : List (String × ℚ) :=
  pdGroupSum (df_devolucoes.map (fun r => (r.nomeVendedor, r.valorTotal)))

/-- A row of the merged per-salesperson frame `df_vendedor` after
`fillna(0)` and the `Faturamento` column assignment (lines 95-99).
`vendedor` / `nomeVendedor` are the two kept key columns; `none` is a key
cell that was NaN after the outer merge and was then filled with the
number `0` by `fillna(0)`. -/
structure VendedorRow where
  vendedor : Option String
  receita : ℚ
  nomeVendedor : Option String
  devolucao : ℚ
  faturamento : ℚ
deriving Repr, DecidableEq

/-- Descending order on the `Faturamento` column, the sort key of line 100. -/
def fatGE (a b : VendedorRow) : Prop :=
  b.faturamento ≤ a.faturamento

instance : DecidableRel fatGE :=
  fun a b => inferInstanceAs (Decidable (b.faturamento ≤ a.faturamento))

instance : IsTotal VendedorRow fatGE :=
  ⟨fun a b => le_total b.faturamento a.faturamento⟩

instance : IsTrans VendedorRow fatGE :=
  ⟨fun _ _ _ h h' => le_trans h' h⟩

/-- One row of the outer merge (lines 95-99) for salesperson `k`: both key
columns are kept; a missing side's key cell is NaN (later filled with the
number `0`), its value cell is filled with `0`, and
`Faturamento = Receita - Devolução` is computed on the filled values. -/
def mergedRow (vv dv : List (String × ℚ)) (k : String) : VendedorRow :=
  { vendedor := if (vv.lookup k).isSome then some k else none
    receita := (vv.lookup k).getD 0
    nomeVendedor := if (dv.lookup k).isSome then some k else none
    devolucao := (dv.lookup k).getD 0
    faturamento := (vv.lookup k).getD 0 - (dv.lookup k).getD 0 }

/-- Lines 95-99: the outer merge of the two grouped frames on
`VENDEDOR` / `NOME_VENDEDOR` followed by `fillna(0)` and the `Faturamento`
column.  Both input frames have unique keys (they are `groupby` outputs),
so the merge yields exactly one row per name in the union of the two key
sets, in ascending name order. -/
def merged_vendedor (df_vendas : List SalesRow) (df_devolucoes : List ReturnRow) :
    List VendedorRow :=
  let vv := vendas_vendedor df_vendas
  let dv := devolucao_vendedor df_devolucoes
  (pdGroupKeys (vv.map Prod.fst ++ dv.map Prod.fst)).map (mergedRow vv dv)

/-- Line 100: `df_vendedor.sort_values(by='Faturamento', ascending=False)`. -/
def df_vendedor (df_vendas : List SalesRow) (df_devolucoes : List ReturnRow) :
    List VendedorRow :=
  List.insertionSort fatGE (merged_vendedor df_vendas df_devolucoes)

/-- Rounding of a rational to the nearest integer with ties to even, the
rounding used by Python's fixed-point float formatting `f"{v:,.2f}"`. -/
def roundHalfEven (q : ℚ) : ℤ :=
  let f := ⌊q⌋
  let r := q - f
  if r < 1 / 2 then f
  else if 1 / 2 < r then f + 1
  else if f % 2 = 0 then f else f + 1

/-- Two decimal digits for the cents part, most significant first. -/
def twoDigits (n : ℕ) : List Char :=
  [Nat.digitChar (n / 10 % 10), Nat.digitChar (n % 10)]

/-- Insert `sep` after every block of three characters, operating on a
least-significant-digit-first list: this is the thousands grouping of
Python's `,` format modifier once reversed back. -/
def groupRev (sep : Char) : List Char → List Char
  | [] => []
  | [a] => [a]
  | [a, b] => [a, b]
  | [a, b, c] => [a, b, c]
  | a :: b :: c :: d :: rest => a :: b :: c :: sep :: groupRev sep (d :: rest)

/-- The digit grouping of a natural number with separator `sep`:
`groupedDigits ',' 1234567 = "1,234,567"` as a char list. -/
def groupedDigits (sep : Char) (n : ℕ) : List Char :=
  (groupRev sep (Nat.toDigits 10 n).reverse).reverse

/-- Python `f"{valor:,.2f}"` as a char list: optional sign, integer part
grouped in threes by commas, a period, and two cents digits.  Python
formats the binary float with round-half-even; the model applies
round-half-even to the exact rational. -/
def pyFormatGrouped (valor : ℚ) : List Char :=
  let cents := roundHalfEven (100 * valor)
  let n := cents.natAbs
  (if cents < 0 then ['-'] else []) ++
    groupedDigits ',' (n / 100) ++ '.' :: twoDigits (n % 100)

/-- Python `str.replace` for a single-character pattern: a per-character
substitution. -/
def pyReplaceChar (a b : Char) (s : List Char) : List Char :=
  s.map (fun c => if c = a then b else c)

/-- Line 30, the `except` branch of `formatar_moeda`:
`f"R$ {valor:,.2f}".replace(",", "X").replace(".", ",").replace("X", ".")`. -/
def formatar_moeda_fallback (valor : ℚ) : String :=
  ⟨pyReplaceChar 'X' '.'
    (pyReplaceChar '.' ','
      (pyReplaceChar ',' 'X'
        (['R', '$', ' '] ++ pyFormatGrouped valor)))⟩

/-- The character substitution effected by the three-step replace chain of
line 30 on a string containing no `'X'`: thousands-comma and decimal-period
are exchanged. -/
def swapSeps (c : Char) : Char :=
  if c = ',' then '.' else if c = '.' then ',' else c

/-- Characterization target for the fallback format: optional sign, the
integer part grouped in threes by periods, then a comma and two cents
digits — the Brazilian convention `###.###,##`. -/
def brFormatted (valor : ℚ) : List Char :=
  let cents := roundHalfEven (100 * valor)
  let n := cents.natAbs
  (if cents < 0 then ['-'] else []) ++
    groupedDigits '.' (n / 100) ++ ',' :: twoDigits (n % 100)

/-- Lines 26-30, `formatar_moeda`: try `locale.currency` — modelled by the
argument `localeCurrency`, which yields `none` exactly when the `try`
branch raises — and on failure fall back to the manual format of line 30. -/
def formatar_moeda (localeCurrency : ℚ → Option String) (valor : ℚ) : String :=
  match localeCurrency valor with
  | some s => s
  | none => formatar_moeda_fallback valor

/-- The `Vendedor` cell displayed for a (possibly fillna-zeroed) name cell:
a NaN name was turned into the number `0` by `fillna(0)` and is displayed
as `0`. -/
def nomeExibido (o : Option String) : String :=
  o.getD "0"

/-- Lines 103-116: the displayed table.  Currency formatting is applied to
the three numeric columns; then, since `'VENDEDOR'` is always a column of
the merge result (the merge keeps both differently-named key columns), the
branch of line 107 is taken and the `Vendedor` column is read from
`VENDEDOR` alone. -/
def tabela_vendedor (localeCurrency : ℚ → Option String)
    (df_vendas : List SalesRow) (df_devolucoes : List ReturnRow) :
    List (String × String × String × String) :=
  (df_vendedor df_vendas df_devolucoes).map (fun r =>
    (nomeExibido r.vendedor,
      formatar_moeda localeCurrency r.receita,
      formatar_moeda localeCurrency r.devolucao,
      formatar_moeda localeCurrency r.faturamento))

/-- The whole aggregation step as one pure function: the three scalar
totals of lines 73-75 and the per-salesperson frame of lines 95-100. -/
def aggregate (df_vendas : List SalesRow) (df_devolucoes : List ReturnRow) :
    (ℚ × ℚ × ℚ) × List VendedorRow :=
  ((total_vendas df_vendas, total_devolucoes df_devolucoes,
    faturamento_liquido df_vendas df_devolucoes),
    df_vendedor df_vendas df_devolucoes)

/-- The `st.cache_data`-memoized sales fetch of line 32: if the cache holds
a (fresh) entry for the requested date it is returned without touching the
base table, otherwise the query runs. -/
def cachedVendas (cache : List (String × List SalesRow))
    (db : List SalesRow) (hoje_str : String) : List SalesRow :=
  match cache.lookup hoje_str with
  | some rows => rows
  | none => carregar_dados_hoje db hoje_str

/-- The memoized returns fetch of line 42. -/
def cachedDevolucoes (cache : List (String × List ReturnRow))
    (db : List ReturnRow) (hoje_str : String) : List ReturnRow :=
  match cache.lookup hoje_str with
  | some rows => rows
  | none => carregar_devolucoes_hoje db hoje_str

/-- A cache is valid (fresh within its TTL) when every entry equals what
the query would return against the base table. -/
def VendasCacheValid (cache : List (String × List SalesRow))
    (db : List SalesRow) : Prop :=
  ∀ h rows, cache.lookup h = some rows → rows = carregar_dados_hoje db h

/-- Validity of the returns cache. -/
def DevolucoesCacheValid (cache : List (String × List ReturnRow))
    (db : List ReturnRow) : Prop :=
  ∀ h rows, cache.lookup h = some rows → rows = carregar_devolucoes_hoje db h

/-! ### Helper lemmas about sums, grouping and lookup -/

theorem pdSum_cons (x : Option ℚ) (l : List (Option ℚ)) :
    pdSum (x :: l) = x.getD 0 + pdSum l := by
  cases x <;> simp [pdSum, List.filterMap_cons]

theorem sum_map_add_single {α : Type} (keys : List α) (k0 : α)
    (f g : α → ℚ) (v : ℚ) (hnd : keys.Nodup) (hmem : k0 ∈ keys)
    (hne : ∀ k, k ≠ k0 → f k = g k) (hk0 : f k0 = v + g k0) :
    (keys.map f).sum = v + (keys.map g).sum := by
  induction keys with
  | nil => cases hmem
  | cons a ks ih =>
    rcases List.mem_cons.mp hmem with h | h
    · subst h
      have hrest : ks.map f = ks.map g :=
        List.map_congr_left (fun k hk =>
          hne k (fun he => (List.nodup_cons.mp hnd).1 (he ▸ hk)))
      simp only [List.map_cons, List.sum_cons, hk0, hrest]
      ring
    · have ha : f a = g a :=
        hne a (fun he => (List.nodup_cons.mp hnd).1 (he ▸ h))
      rw [List.map_cons, List.map_cons, List.sum_cons, List.sum_cons, ha,
        ih (List.nodup_cons.mp hnd).2 h]
      ring

theorem sum_groupSums_eq_named (pairs : List (Option String × Option ℚ))
    (keys : List String) (hnd : keys.Nodup)
    (hcov : ∀ p ∈ pairs, ∀ s, p.1 = some s → s ∈ keys) :
    (keys.map (fun k =>
        pdSum ((pairs.filter (fun p => p.1 == some k)).map Prod.snd))).sum
      = pdSum ((pairs.filter (fun p => p.1.isSome)).map Prod.snd) := by
  induction pairs with
  | nil => simp [pdSum]
  | cons p rest ih =>
    have ihr := ih (fun q hq s hs => hcov q (List.mem_cons_of_mem _ hq) s hs)
    rcases hp : p.1 with _ | s
    · have hbeq : ∀ k : String, ((none : Option String) == some k) = false :=
        fun _ => rfl
      simp only [List.filter_cons, hp, hbeq, Option.isSome_none, Bool.false_eq_true,
        if_false, cond_false]
      simpa using ihr
    · have hs : s ∈ keys := hcov p (List.mem_cons_self _ _) s hp
      have hF : ∀ k, k ≠ s →
          pdSum (((p :: rest).filter (fun q => q.1 == some k)).map Prod.snd)
            = pdSum ((rest.filter (fun q => q.1 == some k)).map Prod.snd) := by
        intro k hk
        have : (p.1 == some k) = false := by
          rw [hp]
          exact beq_eq_false_iff_ne.mpr (fun e => hk (Option.some.inj e).symm)
        simp [List.filter_cons, this]
      have hFs : pdSum (((p :: rest).filter (fun q => q.1 == some s)).map Prod.snd)
          = p.2.getD 0 + pdSum ((rest.filter (fun q => q.1 == some s)).map Prod.snd) := by
        have : (p.1 == some s) = true := by rw [hp]; exact beq_self_eq_true _
        simp [List.filter_cons, this, pdSum_cons]
      rw [sum_map_add_single keys s _ _ (p.2.getD 0) hnd hs
        (fun k hk => hF k (fun e => hk e)) hFs, ihr]
      have : (p.1.isSome : Bool) = true := by rw [hp]; rfl
      simp [List.filter_cons, this, pdSum_cons]

theorem pdGroupKeys_nodup (ks : List String) : (pdGroupKeys ks).Nodup :=
  (List.perm_insertionSort _ ks.dedup).nodup_iff.mpr (List.nodup_dedup ks)

theorem mem_pdGroupKeys {s : String} {ks : List String} :
    s ∈ pdGroupKeys ks ↔ s ∈ ks := by
  unfold pdGroupKeys
  rw [List.mem_insertionSort, List.mem_dedup]

theorem pdGroupSum_keys (pairs : List (Option String × Option ℚ)) :
    (pdGroupSum pairs).map Prod.fst = pdGroupKeys (pairs.filterMap Prod.fst) := by
  simp only [pdGroupSum, List.map_map]
  exact List.map_id _ ▸ List.map_congr_left (fun k _ => rfl)

theorem lookup_map_pair {β : Type} (f : String → β) {keys : List String} {k : String}
    (h : k ∈ keys) : (keys.map (fun x => (x, f x))).lookup k = some (f k) := by
  induction keys with
  | nil => cases h
  | cons a ks ih =>
    by_cases hk : k = a
    · subst hk
      simp [List.lookup]
    · rcases List.mem_cons.mp h with h' | h'
      · exact absurd h' hk
      · simpa [List.lookup, beq_eq_false_iff_ne.mpr hk] using ih h'

theorem lookup_eq_none_of_forall {β : Type} {l : List (String × β)} {k : String}
    (h : ∀ p ∈ l, p.1 ≠ k) : l.lookup k = none := by
  induction l with
  | nil => rfl
  | cons p rest ih =>
    obtain ⟨a, b⟩ := p
    have h1 : a ≠ k := h (a, b) (List.mem_cons_self _ _)
    simpa [List.lookup, beq_eq_false_iff_ne.mpr (fun e : k = a => h1 e.symm)] using
      ih (fun q hq => h q (List.mem_cons_of_mem _ hq))

theorem sum_lookup_over_keys (vv : List (String × ℚ)) (keys : List String)
    (hnd : (vv.map Prod.fst).Nodup) (hknd : keys.Nodup)
    (hsub : ∀ p ∈ vv, p.1 ∈ keys) :
    (keys.map (fun k => (vv.lookup k).getD 0)).sum = (vv.map Prod.snd).sum := by
  induction vv with
  | nil => simp [List.lookup]
  | cons p vv' ih =>
    obtain ⟨a, q⟩ := p
    have ha : a ∈ keys := hsub (a, q) (List.mem_cons_self _ _)
    have hnd' : (vv'.map Prod.fst).Nodup := (List.nodup_cons.mp hnd).2
    have hanotin : a ∉ vv'.map Prod.fst := (List.nodup_cons.mp hnd).1
    have hnone : vv'.lookup a = none :=
      lookup_eq_none_of_forall (fun p hp e =>
        hanotin (e ▸ List.mem_map_of_mem Prod.fst hp))
    have hF : ∀ k, k ≠ a →
        ((((a, q) :: vv').lookup k).getD 0) = ((vv'.lookup k).getD 0) := by
      intro k hk
      simp [List.lookup, beq_eq_false_iff_ne.mpr hk]
    have hFa : ((((a, q) :: vv').lookup a).getD 0) = q + ((vv'.lookup a).getD 0) := by
      simp [List.lookup, hnone]
    rw [sum_map_add_single keys a _ _ q hknd ha hF hFa, List.map_cons, List.sum_cons,
      ih hnd' (fun p hp => hsub p (List.mem_cons_of_mem _ hp))]

theorem pdSum_filter_isSome_split (pairs : List (Option String × Option ℚ)) :
    pdSum (pairs.map Prod.snd)
      = pdSum ((pairs.filter (fun p => p.1.isSome)).map Prod.snd)
        + pdSum ((pairs.filter (fun p => p.1 == none)).map Prod.snd) := by
  induction pairs with
  | nil => simp [pdSum]
  | cons p rest ih =>
    rcases hp : p.1 with _ | s
    · have hbeq : (p.1 == none) = true := by rw [hp]; rfl
      have hsome : (p.1.isSome : Bool) = false := by rw [hp]; rfl
      simp only [List.filter_cons, hbeq, hsome, Bool.false_eq_true, if_false, if_true,
        List.map_cons, pdSum_cons, ih]
      ring
    · have hbeq : (p.1 == none) = false := by rw [hp]; rfl
      have hsome : (p.1.isSome : Bool) = true := by rw [hp]; rfl
      simp only [List.filter_cons, hbeq, hsome, Bool.false_eq_true, if_false, if_true,
        List.map_cons, pdSum_cons, ih]
      ring

theorem sum_map_sub_pointwise {α : Type} (l : List α) (f g : α → ℚ) :
    (l.map (fun x => f x - g x)).sum = (l.map f).sum - (l.map g).sum := by
  induction l with
  | nil => simp
  | cons a t ih =>
    simp only [List.map_cons, List.sum_cons, ih]
    ring

theorem grouped_sum_plus_unnamed (pairs : List (Option String × Option ℚ)) :
    ((pdGroupSum pairs).map Prod.snd).sum
        + pdSum ((pairs.filter (fun p => p.1 == none)).map Prod.snd)
      = pdSum (pairs.map Prod.snd) := by
  have h1 : ((pdGroupSum pairs).map Prod.snd).sum
      = pdSum ((pairs.filter (fun p => p.1.isSome)).map Prod.snd) := by
    unfold pdGroupSum
    rw [List.map_map]
    exact sum_groupSums_eq_named pairs _ (pdGroupKeys_nodup _)
      (fun p hp s hs => mem_pdGroupKeys.mpr (List.mem_filterMap.mpr ⟨p, hp, hs⟩))
  rw [h1, ← pdSum_filter_isSome_split]

/-! ### Helper lemmas about the fallback currency format -/

theorem swap_chain_char (c : Char) (hc : c ≠ 'X') :
    (fun x => if x = 'X' then '.' else x)
        ((fun x => if x = '.' then ',' else x)
          ((fun x => if x = ',' then 'X' else x) c)) = swapSeps c := by
  by_cases h1 : c = ','
  · subst h1; rfl
  · by_cases h2 : c = '.'
    · subst h2; rfl
    · simp [h1, h2, hc, swapSeps]

theorem replace_chain_eq_map_swap (l : List Char) (h : ∀ c ∈ l, c ≠ 'X') :
    pyReplaceChar 'X' '.' (pyReplaceChar '.' ',' (pyReplaceChar ',' 'X' l))
      = l.map swapSeps := by
  simp only [pyReplaceChar, List.map_map]
  exact List.map_congr_left (fun c hc => swap_chain_char c (h c hc))

theorem map_groupRev (f : Char → Char) (sep : Char) :
    ∀ l : List Char, (groupRev sep l).map f = groupRev (f sep) (l.map f)
  | [] => rfl
  | [_] => rfl
  | [_, _] => rfl
  | [_, _, _] => rfl
  | a :: b :: c :: d :: rest => by
    have ih := map_groupRev f sep (d :: rest)
    simp only [groupRev, List.map_cons] at ih ⊢
    rw [ih]

theorem mem_groupRev (sep : Char) :
    ∀ (l : List Char) (c : Char), c ∈ groupRev sep l → c = sep ∨ c ∈ l
  | [], c, h => Or.inr h
  | [_], c, h => Or.inr h
  | [_, _], c, h => Or.inr h
  | [_, _, _], c, h => Or.inr h
  | a :: b :: c' :: d :: rest, c, h => by
    simp only [groupRev, List.mem_cons] at h
    rcases h with h | h | h | h | h
    · exact Or.inr (by simp [h])
    · exact Or.inr (by simp [h])
    · exact Or.inr (by simp [h])
    · exact Or.inl h
    · rcases mem_groupRev sep (d :: rest) c h with h' | h'
      · exact Or.inl h'
      · exact Or.inr (by simp only [List.mem_cons] at h' ⊢; tauto)

theorem digitChar_good (n : ℕ) (h : n < 10) :
    Nat.digitChar n ≠ ',' ∧ Nat.digitChar n ≠ '.' ∧ Nat.digitChar n ≠ 'X'
      ∧ swapSeps (Nat.digitChar n) = Nat.digitChar n := by
  interval_cases n <;> exact ⟨by decide, by decide, by decide, by decide⟩

theorem toDigitsCore_good (fuel : ℕ) :
    ∀ (n : ℕ) (acc : List Char),
      (∀ c ∈ acc, c ≠ ',' ∧ c ≠ '.' ∧ c ≠ 'X' ∧ swapSeps c = c) →
      ∀ c ∈ Nat.toDigitsCore 10 fuel n acc,
        c ≠ ',' ∧ c ≠ '.' ∧ c ≠ 'X' ∧ swapSeps c = c := by
  induction fuel with
  | zero =>
    intro n acc hacc c hc
    exact hacc c hc
  | succ fuel ih =>
    intro n acc hacc c hc
    have hd : ∀ c ∈ Nat.digitChar (n % 10) :: acc,
        c ≠ ',' ∧ c ≠ '.' ∧ c ≠ 'X' ∧ swapSeps c = c := by
      intro x hx
      rcases List.mem_cons.mp hx with h | h
      · exact h ▸ digitChar_good (n % 10) (Nat.mod_lt n (by norm_num))
      · exact hacc x h
    rw [Nat.toDigitsCore] at hc
    by_cases h10 : n / 10 = 0
    · rw [if_pos h10] at hc
      exact hd c hc
    · rw [if_neg h10] at hc
      exact ih (n / 10) (Nat.digitChar (n % 10) :: acc) hd c hc

theorem toDigits_good (n : ℕ) :
    ∀ c ∈ Nat.toDigits 10 n,
      c ≠ ',' ∧ c ≠ '.' ∧ c ≠ 'X' ∧ swapSeps c = c := by
  rw [Nat.toDigits]
  exact toDigitsCore_good (n + 1) n [] (by intro c hc; cases hc)

theorem map_swap_twoDigits (k : ℕ) :
    (twoDigits k).map swapSeps = twoDigits k := by
  have h1 := digitChar_good (k / 10 % 10) (Nat.mod_lt _ (by norm_num))
  have h2 := digitChar_good (k % 10) (Nat.mod_lt _ (by norm_num))
  simp [twoDigits, h1.2.2.2, h2.2.2.2]

theorem map_swap_groupedDigits (n : ℕ) :
    (groupedDigits ',' n).map swapSeps = groupedDigits '.' n := by
  unfold groupedDigits
  rw [List.map_reverse, map_groupRev]
  have hdig : (Nat.toDigits 10 n).map swapSeps = Nat.toDigits 10 n := by
    have : (Nat.toDigits 10 n).map swapSeps = (Nat.toDigits 10 n).map id :=
      List.map_congr_left (fun c hc => (toDigits_good n c hc).2.2.2)
    rw [this, List.map_id]
  rw [List.map_reverse, hdig]
  rfl

theorem twoDigits_no_X (k : ℕ) : ∀ c ∈ twoDigits k, c ≠ 'X' := by
  intro c hc
  have h1 := digitChar_good (k / 10 % 10) (Nat.mod_lt _ (by norm_num))
  have h2 := digitChar_good (k % 10) (Nat.mod_lt _ (by norm_num))
  rcases List.mem_cons.mp hc with h | h
  · exact h ▸ h1.2.2.1
  · rcases List.mem_cons.mp h with h' | h'
    · exact h' ▸ h2.2.2.1
    · cases h'

theorem groupedDigits_no_X (n : ℕ) : ∀ c ∈ groupedDigits ',' n, c ≠ 'X' := by
  intro c hc
  unfold groupedDigits at hc
  rw [List.mem_reverse] at hc
  rcases mem_groupRev ',' _ c hc with h | h
  · subst h; decide
  · rw [List.mem_reverse] at h
    exact (toDigits_good n c h).2.2.1

theorem pyFormatGrouped_no_X (valor : ℚ) :
    ∀ c ∈ ['R', '$', ' '] ++ pyFormatGrouped valor, c ≠ 'X' := by
  intro c hc
  rcases List.mem_append.mp hc with h | h
  · rcases List.mem_cons.mp h with h' | h'
    · subst h'; decide
    · rcases List.mem_cons.mp h' with h'' | h''
      · subst h''; decide
      · rcases List.mem_cons.mp h'' with h3 | h3
        · subst h3; decide
        · cases h3
  · unfold pyFormatGrouped at h
    rcases List.mem_append.mp h with h' | h'
    · rcases List.mem_append.mp h' with h'' | h''
      · by_cases hneg : roundHalfEven (100 * valor) < 0
        · rw [if_pos hneg] at h''
          rcases List.mem_cons.mp h'' with h3 | h3
          · subst h3; decide
          · cases h3
        · rw [if_neg hneg] at h''
          cases h''
      · exact groupedDigits_no_X _ c h''
    · rcases List.mem_cons.mp h' with h'' | h''
      · subst h''; decide
      · exact twoDigits_no_X _ c h''

/-- The fallback branch of `formatar_moeda` produces exactly the Brazilian
format: `R$ `, then the integer part grouped in threes by periods, a comma,
and two cents digits. -/
theorem fallback_eq_brFormatted (valor : ℚ) :
    formatar_moeda_fallback valor = ⟨'R' :: '$' :: ' ' :: brFormatted valor⟩ := by
  unfold formatar_moeda_fallback
  rw [replace_chain_eq_map_swap _ (pyFormatGrouped_no_X valor)]
  unfold pyFormatGrouped brFormatted
  have hsign : (List.map swapSeps (if roundHalfEven (100 * valor) < 0 then ['-'] else []))
      = (if roundHalfEven (100 * valor) < 0 then ['-'] else []) := by
    split <;> rfl
  simp only [List.map_append, List.map_cons, List.map_nil]
  rw [hsign, map_swap_groupedDigits, map_swap_twoDigits]
  rfl

theorem filter_map_comm {α β : Type} (f : α → β) (p : β → Bool) (l : List α) :
    (l.map f).filter p = (l.filter (fun a => p (f a))).map f := by
  induction l with
  | nil => rfl
  | cons a t ih => by_cases h : p (f a) <;> simp [List.filter_cons, h, ih]

theorem total_vendas_grouped_split (s : List SalesRow) :
    total_vendas s
      = ((vendas_vendedor s).map Prod.snd).sum
        + pdSum ((s.filter (fun r => r.vendedor == none)).map (·.valorNF)) := by
  have h := grouped_sum_plus_unnamed (s.map (fun r => (r.vendedor, r.valorNF)))
  rw [filter_map_comm] at h
  rw [List.map_map, List.map_map] at h
  exact h.symm

theorem total_devolucoes_grouped_split (d : List ReturnRow) :
    total_devolucoes d
      = ((devolucao_vendedor d).map Prod.snd).sum
        + pdSum ((d.filter (fun r => r.nomeVendedor == none)).map (·.valorTotal)) := by
  have h := grouped_sum_plus_unnamed (d.map (fun r => (r.nomeVendedor, r.valorTotal)))
  rw [filter_map_comm] at h
  rw [List.map_map, List.map_map] at h
  exact h.symm

/-! ### Claim theorems -/

unseal Rat.add Rat.mul Rat.sub Rat.inv in
/-- C7: given empty sales and empty returns the aggregation succeeds, the
three scalar totals are all `0`, and the per-salesperson summary is empty. -/
theorem empty_inputs_zero_totals_empty_summary :
    aggregate [] [] = ((0, 0, 0), []) := by decide

unseal Rat.add Rat.mul Rat.sub Rat.inv in
/-- C1 (failing evaluation): at sales = [("Carol", 300)],
returns = [("Dave", 100)] the `Vendedor` column of the displayed table is
["Carol", "0"], so "Dave" never appears: his row survives with the right
numbers, but its `VENDEDOR` cell was NaN after the outer merge, `fillna(0)`
overwrote it with the number `0`, and the always-taken `'VENDEDOR'` branch
of line 107 displays that `0` instead of the `NOME_VENDEDOR` value. -/
theorem returns_only_name_displayed_as_zero :
    (tabela_vendedor (fun _ => none)
        [⟨"2025-01-06", some "Carol", some 300⟩]
        [⟨1, some 100, "NF1", "2025-01-06", "D1", some "Dave"⟩]).map Prod.fst
      = ["Carol", "0"]
    ∧ "Dave" ∉ (tabela_vendedor (fun _ => none)
        [⟨"2025-01-06", some "Carol", some 300⟩]
        [⟨1, some 100, "NF1", "2025-01-06", "D1", some "Dave"⟩]).map Prod.fst
    ∧ df_vendedor [⟨"2025-01-06", some "Carol", some 300⟩]
        [⟨1, some 100, "NF1", "2025-01-06", "D1", some "Dave"⟩]
      = [⟨some "Carol", 300, none, 0, 300⟩, ⟨none, 0, some "Dave", 100, -100⟩] := by
  decide

unseal Rat.add Rat.mul Rat.sub Rat.inv in
/-- C2 (counterexample): when locale resolution fails at the value 1234.5,
the fallback string is "R$ 1.234,50" — period as thousands separator and
comma as decimal separator — not the claimed comma-thousands,
period-decimal form "R$ 1,234.50". -/
theorem fallback_not_comma_thousands :
    formatar_moeda (fun _ => none) (2469 / 2) = "R$ 1.234,50"
    ∧ formatar_moeda (fun _ => none) (2469 / 2) ≠ "R$ 1,234.50" := by
  decide

/-- C2 (amended): whenever `locale.currency` fails, `formatar_moeda`
recovers locally and returns the deterministic fallback string
`R$ ###.###,##`: the prefix `R$ `, the integer part grouped in threes with
a PERIOD as thousands separator, and a COMMA before the two decimal
digits. -/
theorem fallback_is_brazilian_format (lc : ℚ → Option String) (valor : ℚ)
    (h : lc valor = none) :
    formatar_moeda lc valor = ⟨'R' :: '$' :: ' ' :: brFormatted valor⟩ := by
  unfold formatar_moeda
  rw [h]
  exact fallback_eq_brFormatted valor

unseal Rat.add Rat.mul Rat.sub Rat.inv in
/-- C2 (witness): the amended fallback theorem applied at the concrete
failing locale and the value 1234.5. -/
theorem fallback_is_brazilian_format_witness :
    formatar_moeda (fun _ => none) (2469 / 2)
      = ⟨'R' :: '$' :: ' ' :: brFormatted (2469 / 2)⟩ :=
  fallback_is_brazilian_format (fun _ => none) (2469 / 2) rfl

/-- C3: the net identity holds on every run: the scalar
`faturamento_liquido` is exactly `total_vendas - total_devolucoes`, and
every row of the per-salesperson summary satisfies
`Faturamento = Receita - Devolução` exactly. -/
theorem net_identity (s : List SalesRow) (d : List ReturnRow) :
    faturamento_liquido s d = total_vendas s - total_devolucoes d
    ∧ ∀ r ∈ df_vendedor s d, r.faturamento = r.receita - r.devolucao := by
  refine ⟨rfl, ?_⟩
  intro r hr
  rw [df_vendedor, List.mem_insertionSort] at hr
  simp only [merged_vendedor] at hr
  rcases List.mem_map.mp hr with ⟨k, _, rfl⟩
  rfl

unseal Rat.add Rat.mul Rat.sub Rat.inv in
/-- C3 (witness): the per-row identity instantiated at a concrete row of a
concrete run. -/
theorem net_identity_witness :
    (⟨some "Carol", (300 : ℚ), none, 0, 300⟩ : VendedorRow).faturamento
      = (⟨some "Carol", (300 : ℚ), none, 0, 300⟩ : VendedorRow).receita
        - (⟨some "Carol", (300 : ℚ), none, 0, 300⟩ : VendedorRow).devolucao :=
  (net_identity [⟨"2025-01-06", some "Carol", some 300⟩] []).2 _ (by decide)

/-- C5: the displayed summary sequence is sorted by `Faturamento` (net)
descending; the sort is a deterministic function of its input, and the
embedding fixes one deterministic order on ties. -/
theorem summary_sorted_by_net_desc (s : List SalesRow) (d : List ReturnRow) :
    List.Pairwise (fun a b => b.faturamento ≤ a.faturamento) (df_vendedor s d) :=
  List.sorted_insertionSort fatGE (merged_vendedor s d)

/-- C4: the grand totals are the sums of the value columns over exactly the
date-filtered rows, and they are computed independently of the grouping:
each total splits into the grouped (named) part plus the contribution of
rows that carry no salesperson name, so unclassifiable records are still
counted. -/
theorem totals_cover_exactly_filtered_rows (dbS : List SalesRow)
    (dbD : List ReturnRow) (hoje_str : String) :
    total_vendas (carregar_dados_hoje dbS hoje_str)
        = pdSum ((dbS.filter (fun r => r.emissao == hoje_str)).map (·.valorNF))
    ∧ total_devolucoes (carregar_devolucoes_hoje dbD hoje_str)
        = pdSum ((dbD.filter (fun r => r.emissaoNFD == hoje_str)).map (·.valorTotal))
    ∧ total_vendas (carregar_dados_hoje dbS hoje_str)
        = ((vendas_vendedor (carregar_dados_hoje dbS hoje_str)).map Prod.snd).sum
          + pdSum (((carregar_dados_hoje dbS hoje_str).filter
              (fun r => r.vendedor == none)).map (·.valorNF))
    ∧ total_devolucoes (carregar_devolucoes_hoje dbD hoje_str)
        = ((devolucao_vendedor (carregar_devolucoes_hoje dbD hoje_str)).map Prod.snd).sum
          + pdSum (((carregar_devolucoes_hoje dbD hoje_str).filter
              (fun r => r.nomeVendedor == none)).map (·.valorTotal)) :=
  ⟨rfl, rfl, total_vendas_grouped_split _, total_devolucoes_grouped_split _⟩

unseal Rat.add Rat.mul Rat.sub Rat.inv in
/-- C8 (counterexample): a sales row whose `ValorNF` is null does not make
the aggregation fail — pandas `sum` skips it (`skipna=True`), so the run
succeeds and the null value is silently treated as `0` in the totals, the
grouped row, and the summary. -/
theorem null_value_silently_zeroed :
    total_vendas [⟨"2025-01-06", some "Alice", none⟩] = 0
    ∧ aggregate [⟨"2025-01-06", some "Alice", none⟩] []
        = ((0, 0, 0), [⟨some "Alice", 0, none, 0, 0⟩]) := by
  decide

/-- C8 (amended): null values in the value fields are silently skipped —
a row with a null `ValorNF` / `VALOR_TOTAL` contributes nothing to its
total; the aggregation is a total function and raises no
DataQualityError on any input. -/
theorem null_rows_contribute_nothing (s : List SalesRow) (d : List ReturnRow)
    (r : SalesRow) (t : ReturnRow) (hr : r.valorNF = none)
    (ht : t.valorTotal = none) :
    total_vendas (r :: s) = total_vendas s
    ∧ total_devolucoes (t :: d) = total_devolucoes d := by
  constructor
  · simp [total_vendas, List.map_cons, pdSum_cons, hr]
  · simp [total_devolucoes, List.map_cons, pdSum_cons, ht]

/-- C8 (witness): the amended theorem applied to a concrete null-valued
row. -/
theorem null_rows_contribute_nothing_witness :
    total_vendas [⟨"2025-01-06", some "Alice", none⟩] = total_vendas []
    ∧ total_devolucoes [⟨2, none, "NF9", "2025-01-06", "D9", some "Bob"⟩]
        = total_devolucoes [] :=
  null_rows_contribute_nothing [] [] _ _ rfl rfl

/-- C9: the aggregation step is a pure function of the two fetched row
sets: given a valid (fresh) memoization cache, running it on the memoized
fetches yields exactly the same totals and the same summary table as
running it on the direct query results, so its output is independent of
whether the `st.cache_data` memoization is present. -/
theorem aggregate_cache_transparent (cs : List (String × List SalesRow))
    (cd : List (String × List ReturnRow)) (dbS : List SalesRow)
    (dbD : List ReturnRow) (hoje_str : String)
    (hcs : VendasCacheValid cs dbS) (hcd : DevolucoesCacheValid cd dbD) :
    aggregate (cachedVendas cs dbS hoje_str) (cachedDevolucoes cd dbD hoje_str)
      = aggregate (carregar_dados_hoje dbS hoje_str)
          (carregar_devolucoes_hoje dbD hoje_str) := by
  have h1 : cachedVendas cs dbS hoje_str = carregar_dados_hoje dbS hoje_str := by
    unfold cachedVendas
    cases h : cs.lookup hoje_str with
    | none => rfl
    | some rows => exact hcs hoje_str rows h
  have h2 : cachedDevolucoes cd dbD hoje_str
      = carregar_devolucoes_hoje dbD hoje_str := by
    unfold cachedDevolucoes
    cases h : cd.lookup hoje_str with
    | none => rfl
    | some rows => exact hcd hoje_str rows h
  rw [h1, h2]

/-- C9 (witness): cache transparency at a concrete populated, valid sales
cache and an empty returns cache. -/
theorem aggregate_cache_transparent_witness :
    aggregate
        (cachedVendas [("2025-01-06", [⟨"2025-01-06", some "Carol", some 300⟩])]
          [⟨"2025-01-06", some "Carol", some 300⟩] "2025-01-06")
        (cachedDevolucoes [] [] "2025-01-06")
      = aggregate
          (carregar_dados_hoje [⟨"2025-01-06", some "Carol", some 300⟩] "2025-01-06")
          (carregar_devolucoes_hoje [] "2025-01-06") :=
  aggregate_cache_transparent _ _ _ _ _
    (by
      intro h rows hl
      by_cases hk : h = "2025-01-06"
      · subst hk
        simp only [List.lookup] at hl
        cases hl
        rfl
      · simp only [List.lookup] at hl
        rw [show (h == "2025-01-06") = false from beq_eq_false_iff_ne.mpr hk] at hl
        cases hl)
    (by intro h rows hl; cases hl)

theorem pdGroupSum_lookup_isSome {pairs : List (Option String × Option ℚ)}
    {k : String} (h : k ∈ pdGroupKeys (pairs.filterMap Prod.fst)) :
    ((pdGroupSum pairs).lookup k).isSome = true := by
  unfold pdGroupSum
  rw [lookup_map_pair _ h]
  rfl

theorem pdGroupSum_lookup_none {pairs : List (Option String × Option ℚ)}
    {k : String} (h : k ∉ pdGroupKeys (pairs.filterMap Prod.fst)) :
    (pdGroupSum pairs).lookup k = none := by
  apply lookup_eq_none_of_forall
  intro p hp e
  have hmem : p.1 ∈ (pdGroupSum pairs).map Prod.fst := List.mem_map_of_mem _ hp
  rw [pdGroupSum_keys] at hmem
  exact h (e ▸ hmem)

theorem mem_vendas_keys {s : List SalesRow} {k : String} :
    k ∈ (vendas_vendedor s).map Prod.fst ↔ some k ∈ s.map (·.vendedor) := by
  rw [vendas_vendedor, pdGroupSum_keys, mem_pdGroupKeys]
  constructor
  · intro h
    rcases List.mem_filterMap.mp h with ⟨p, hp, hfst⟩
    rcases List.mem_map.mp hp with ⟨r, hr, rfl⟩
    exact List.mem_map.mpr ⟨r, hr, hfst⟩
  · intro h
    rcases List.mem_map.mp h with ⟨r, hr, hv⟩
    exact List.mem_filterMap.mpr
      ⟨(r.vendedor, r.valorNF), List.mem_map.mpr ⟨r, hr, rfl⟩, hv⟩

theorem mem_devolucao_keys {d : List ReturnRow} {k : String} :
    k ∈ (devolucao_vendedor d).map Prod.fst ↔ some k ∈ d.map (·.nomeVendedor) := by
  rw [devolucao_vendedor, pdGroupSum_keys, mem_pdGroupKeys]
  constructor
  · intro h
    rcases List.mem_filterMap.mp h with ⟨p, hp, hfst⟩
    rcases List.mem_map.mp hp with ⟨r, hr, rfl⟩
    exact List.mem_map.mpr ⟨r, hr, hfst⟩
  · intro h
    rcases List.mem_map.mp h with ⟨r, hr, hv⟩
    exact List.mem_filterMap.mpr
      ⟨(r.nomeVendedor, r.valorTotal), List.mem_map.mpr ⟨r, hr, rfl⟩, hv⟩

/-- C6: a salesperson present only in the sales input keeps a summary row
whose `Devolução` is `0` (and whose merged `NOME_VENDEDOR` cell is the NaN
later filled with `0`); a salesperson present only in the returns input
keeps a summary row whose `Receita` is `0`.  Neither row is dropped. -/
theorem zero_default_for_one_sided_names (s : List SalesRow) (d : List ReturnRow)
    (k : String) :
    (some k ∈ s.map (·.vendedor) → some k ∉ d.map (·.nomeVendedor) →
      ∃ r ∈ df_vendedor s d,
        r.vendedor = some k ∧ r.devolucao = 0 ∧ r.nomeVendedor = none)
    ∧ (some k ∈ d.map (·.nomeVendedor) → some k ∉ s.map (·.vendedor) →
      ∃ r ∈ df_vendedor s d,
        r.nomeVendedor = some k ∧ r.receita = 0 ∧ r.vendedor = none) := by
  constructor
  · intro hsk hdk
    have hk1 : k ∈ (vendas_vendedor s).map Prod.fst := mem_vendas_keys.mpr hsk
    have hk2 : k ∉ (devolucao_vendedor d).map Prod.fst :=
      fun hc => hdk (mem_devolucao_keys.mp hc)
    have hkeys : k ∈ pdGroupKeys
        ((vendas_vendedor s).map Prod.fst ++ (devolucao_vendedor d).map Prod.fst) :=
      mem_pdGroupKeys.mpr (List.mem_append.mpr (Or.inl hk1))
    have hsome : ((vendas_vendedor s).lookup k).isSome = true := by
      rw [vendas_vendedor, pdGroupSum_keys] at hk1
      exact pdGroupSum_lookup_isSome hk1
    have hnone : (devolucao_vendedor d).lookup k = none := by
      rw [devolucao_vendedor, pdGroupSum_keys] at hk2
      exact pdGroupSum_lookup_none hk2
    refine ⟨mergedRow (vendas_vendedor s) (devolucao_vendedor d) k, ?_, ?_⟩
    · rw [df_vendedor, List.mem_insertionSort]
      simp only [merged_vendedor]
      exact List.mem_map_of_mem _ hkeys
    · simp [mergedRow, hsome, hnone]
  · intro hdk hsk
    have hk1 : k ∈ (devolucao_vendedor d).map Prod.fst := mem_devolucao_keys.mpr hdk
    have hk2 : k ∉ (vendas_vendedor s).map Prod.fst :=
      fun hc => hsk (mem_vendas_keys.mp hc)
    have hkeys : k ∈ pdGroupKeys
        ((vendas_vendedor s).map Prod.fst ++ (devolucao_vendedor d).map Prod.fst) :=
      mem_pdGroupKeys.mpr (List.mem_append.mpr (Or.inr hk1))
    have hsome : ((devolucao_vendedor d).lookup k).isSome = true := by
      rw [devolucao_vendedor, pdGroupSum_keys] at hk1
      exact pdGroupSum_lookup_isSome hk1
    have hnone : (vendas_vendedor s).lookup k = none := by
      rw [vendas_vendedor, pdGroupSum_keys] at hk2
      exact pdGroupSum_lookup_none hk2
    refine ⟨mergedRow (vendas_vendedor s) (devolucao_vendedor d) k, ?_, ?_⟩
    · rw [df_vendedor, List.mem_insertionSort]
      simp only [merged_vendedor]
      exact List.mem_map_of_mem _ hkeys
    · simp [mergedRow, hsome, hnone]

unseal Rat.add Rat.mul Rat.sub Rat.inv in
/-- C6 (witness): zero-defaulting at the concrete run with
sales = [("Carol", 300)] and returns = [("Dave", 100)]. -/
theorem zero_default_for_one_sided_names_witness :
    (∃ r ∈ df_vendedor [⟨"2025-01-06", some "Carol", some 300⟩]
        [⟨1, some 100, "NF1", "2025-01-06", "D1", some "Dave"⟩],
      r.vendedor = some "Carol" ∧ r.devolucao = 0 ∧ r.nomeVendedor = none)
    ∧ (∃ r ∈ df_vendedor [⟨"2025-01-06", some "Carol", some 300⟩]
        [⟨1, some 100, "NF1", "2025-01-06", "D1", some "Dave"⟩],
      r.nomeVendedor = some "Dave" ∧ r.receita = 0 ∧ r.vendedor = none) :=
  ⟨(zero_default_for_one_sided_names _ _ "Carol").1 (by decide) (by decide),
   (zero_default_for_one_sided_names _ _ "Dave").2 (by decide) (by decide)⟩

/-- C10: when every sales row and every return row carries a salesperson
name, the grand totals are the homomorphic image of the summary: the sum of
the summary `Receita` column equals `total_vendas`, the sum of `Devolução`
equals `total_devolucoes`, and the sum of `Faturamento` equals
`faturamento_liquido`. -/
theorem grand_totals_homomorphic (s : List SalesRow) (d : List ReturnRow)
    (hs : ∀ r ∈ s, r.vendedor ≠ none) (hd : ∀ r ∈ d, r.nomeVendedor ≠ none) :
    ((df_vendedor s d).map (·.receita)).sum = total_vendas s
    ∧ ((df_vendedor s d).map (·.devolucao)).sum = total_devolucoes d
    ∧ ((df_vendedor s d).map (·.faturamento)).sum = faturamento_liquido s d := by
  have hperm : ∀ f : VendedorRow → ℚ,
      ((df_vendedor s d).map f).sum = ((merged_vendedor s d).map f).sum :=
    fun f => ((List.perm_insertionSort fatGE (merged_vendedor s d)).map f).sum_eq
  have hndvv : ((vendas_vendedor s).map Prod.fst).Nodup := by
    rw [vendas_vendedor, pdGroupSum_keys]
    exact pdGroupKeys_nodup _
  have hnddv : ((devolucao_vendedor d).map Prod.fst).Nodup := by
    rw [devolucao_vendedor, pdGroupSum_keys]
    exact pdGroupKeys_nodup _
  have hrec : ((merged_vendedor s d).map (·.receita)).sum
      = ((vendas_vendedor s).map Prod.snd).sum := by
    simp only [merged_vendedor, List.map_map]
    exact sum_lookup_over_keys (vendas_vendedor s) _ hndvv (pdGroupKeys_nodup _)
      (fun p hp => mem_pdGroupKeys.mpr
        (List.mem_append.mpr (Or.inl (List.mem_map_of_mem _ hp))))
  have hdev : ((merged_vendedor s d).map (·.devolucao)).sum
      = ((devolucao_vendedor d).map Prod.snd).sum := by
    simp only [merged_vendedor, List.map_map]
    exact sum_lookup_over_keys (devolucao_vendedor d) _ hnddv (pdGroupKeys_nodup _)
      (fun p hp => mem_pdGroupKeys.mpr
        (List.mem_append.mpr (Or.inr (List.mem_map_of_mem _ hp))))
  have hzeroS : s.filter (fun r => r.vendedor == none) = [] :=
    List.filter_eq_nil_iff.mpr (fun r hr => by
      simp only [beq_iff_eq]
      exact hs r hr)
  have hzeroD : d.filter (fun r => r.nomeVendedor == none) = [] :=
    List.filter_eq_nil_iff.mpr (fun r hr => by
      simp only [beq_iff_eq]
      exact hd r hr)
  have hTS : ((vendas_vendedor s).map Prod.snd).sum = total_vendas s := by
    have h := total_vendas_grouped_split s
    rw [hzeroS] at h
    simpa [pdSum] using h.symm
  have hTD : ((devolucao_vendedor d).map Prod.snd).sum = total_devolucoes d := by
    have h := total_devolucoes_grouped_split d
    rw [hzeroD] at h
    simpa [pdSum] using h.symm
  have hfat : ((merged_vendedor s d).map (·.faturamento)).sum
      = ((merged_vendedor s d).map (·.receita)).sum
        - ((merged_vendedor s d).map (·.devolucao)).sum := by
    have hpt : (merged_vendedor s d).map (·.faturamento)
        = (merged_vendedor s d).map (fun r => r.receita - r.devolucao) :=
      List.map_congr_left (fun r hr => by
        simp only [merged_vendedor] at hr
        rcases List.mem_map.mp hr with ⟨k, _, rfl⟩
        rfl)
    rw [hpt, sum_map_sub_pointwise]
  refine ⟨?_, ?_, ?_⟩
  · rw [hperm, hrec, hTS]
  · rw [hperm, hdev, hTD]
  · rw [hperm, hfat, hrec, hdev, hTS, hTD]
    rfl

unseal Rat.add Rat.mul Rat.sub Rat.inv in
/-- C10 (witness): the homomorphism at the concrete fully-named run with
sales = [("Carol", 300)] and returns = [("Dave", 100)]. -/
theorem grand_totals_homomorphic_witness :
    ((df_vendedor [⟨"2025-01-06", some "Carol", some 300⟩]
          [⟨1, some 100, "NF1", "2025-01-06", "D1", some "Dave"⟩]).map
        (·.receita)).sum
      = total_vendas [⟨"2025-01-06", some "Carol", some 300⟩]
    ∧ ((df_vendedor [⟨"2025-01-06", some "Carol", some 300⟩]
          [⟨1, some 100, "NF1", "2025-01-06", "D1", some "Dave"⟩]).map
        (·.devolucao)).sum
      = total_devolucoes [⟨1, some 100, "NF1", "2025-01-06", "D1", some "Dave"⟩]
    ∧ ((df_vendedor [⟨"2025-01-06", some "Carol", some 300⟩]
          [⟨1, some 100, "NF1", "2025-01-06", "D1", some "Dave"⟩]).map
        (·.faturamento)).sum
      = faturamento_liquido [⟨"2025-01-06", some "Carol", some 300⟩]
          [⟨1, some 100, "NF1", "2025-01-06", "D1", some "Dave"⟩] :=
  grand_totals_homomorphic _ _ (by decide) (by decide)
